import Mathlib

/-!
Verification development for the forgeops-manager maintenance toolkit.

The definitions below are shallow embeddings of the Python source under
`src/`: the generic paginator (`src/providers/github/api.py`), the
code-scanning delete protocol and bulk operations
(`src/providers/github/security.py`), the bulk delete orchestrators
(`src/providers/github/actions.py`, `releases.py`, `cache.py`), the social
sync service (`src/providers/github/social.py`), the HTTP resilience layer
(`src/utils/http_client.py`) and the redaction logic
(`src/utils/structured_logging.py`).  Mocked HTTP traffic is passed in as
explicit lists of scripted responses; machine arithmetic is modelled with
`Nat`/`Int`/`ℚ`.
-/

namespace ForgeOps

/-! ## JSON value model -/

/-- Minimal JSON value, covering the shapes `paginate` inspects:
raw arrays, objects (ordered field lists, as Python dicts preserve
insertion order), and scalar leaves. -/
inductive JVal where
  | null
  | jbool (b : Bool)
  | num (n : Int)
  | str (s : String)
  | arr (xs : List JVal)
  | obj (fields : List (String × JVal))
deriving Repr

/-- `isinstance(e, dict)` test on one JSON element. -/
def isObj : JVal → Bool
  | .obj _ => true
  | _ => false

/-- `isinstance(v, list)` test on one JSON element. -/
def isArr : JVal → Bool
  | .arr _ => true
  | _ => false

/-- Embeds `_only_dicts` (api.py line 47): keep only the mapping-typed
elements of a sequence. -/
def onlyDicts (xs : List JVal) : List JVal := xs.filter isObj

/-- Python `dict` lookup on the ordered field list (keys are unique in a
Python dict; first match is the lookup). -/
def lookupField : List (String × JVal) → String → Option JVal
  | [], _ => none
  | (k', v) :: rest, k => if k' = k then some v else lookupField rest k

/-- Embeds the `for v_any in values_list: if isinstance(v_any, list)` scan
(api.py lines 146-152): the first field value that is an array. -/
def firstArrayValue : List (String × JVal) → Option (List JVal)
  | [] => none
  | (_, .arr xs) :: _ => some xs
  | _ :: rest => firstArrayValue rest

/-- Errors `paginate` can raise while normalising a page
(api.py lines 157-180). -/
inductive PagError where
  | noArrayKey (keys : List String)
  | badType
deriving Repr, DecidableEq

/-- Embeds the last-resort branch of `paginate` (api.py lines 141-171):
first array-valued entry of the dict, else a fatal error naming the
available keys. -/
def fallbackFirstList (fs : List (String × JVal)) : Except PagError (List JVal) :=
  match firstArrayValue fs with
  | some xs => .ok (onlyDicts xs)
  | none => .error (.noArrayKey (fs.map Prod.fst))

/-- Embeds the page-normalisation step of `paginate`
(api.py lines 116-180): raw array, keyed object (caller key, the
hardcoded `workflow_runs`/`caches` defaults when no caller key was given,
first array value as last resort), or a fatal error. -/
def extractItems (arrayKey : Option String) : JVal → Except PagError (List JVal)
  | .arr xs => .ok (onlyDicts xs)
  | .obj fs =>
    let key : Option String :=
      match arrayKey with
      | some k => some k
      | none =>
        if (lookupField fs "workflow_runs").isSome then some "workflow_runs"
        else if (lookupField fs "caches").isSome then some "caches"
        else none
    match key with
    | some k =>
      match lookupField fs k with
      | some (.arr xs) => .ok (onlyDicts xs)
      | _ => fallbackFirstList fs
    | none => fallbackFirstList fs
  | _ => .error .badType

/-- Modelled from the claim's words (refinement foil for C1): the strict
cascade reading in which a supplied `array_key` that fails to locate an
array falls back to the hardcoded keys `workflow_runs` then `caches`
before the first-array last resort. -/
def arrAt (fs : List (String × JVal)) (k : String) : Option (List JVal) :=
  match lookupField fs k with
  | some (.arr xs) => some xs
  | _ => none

/-- Modelled from the claim's words (refinement foil for C1): extraction
following the cascade `array_key`, else `workflow_runs`/`caches`, else
first array value, else error. -/
def extractItemsClaim (arrayKey : Option String) : JVal → Except PagError (List JVal)
  | .arr xs => .ok (onlyDicts xs)
  | .obj fs =>
    match arrayKey.bind (arrAt fs) with
    | some xs => .ok (onlyDicts xs)
    | none =>
      match arrAt fs "workflow_runs" with
      | some xs => .ok (onlyDicts xs)
      | none =>
        match arrAt fs "caches" with
        | some xs => .ok (onlyDicts xs)
        | none =>
          match firstArrayValue fs with
          | some xs => .ok (onlyDicts xs)
          | none => .error (.noArrayKey (fs.map Prod.fst))
  | _ => .error .badType

/-- Embeds the `per_page` clamping of `paginate` (api.py lines 88-94):
`max(1, min(v, 100))`. -/
def clampPerPage (v : Int) : Nat := (max 1 (min v 100)).toNat

/-- Items a page contributes once extraction succeeded (empty on error;
only used under a no-error hypothesis). -/
def pageItems (arrayKey : Option String) (d : JVal) : List JVal :=
  match extractItems arrayKey d with
  | .ok items => items
  | .error _ => []

/-- The `paginate` loop of api.py (lines 84-203) run against a finite
mocked sequence of page bodies: returns the yielded records, the number
of pages fetched, and the error terminating the generator, if any.  An
exhausted script corresponds to the server answering an empty page. -/
def paginateFrom (arrayKey : Option String) (perPage : Nat) :
    List JVal → List JVal × Nat × Option PagError
  | [] => ([], 0, none)
  | d :: rest =>
    match extractItems arrayKey d with
    | .error e => ([], 1, some e)
    | .ok items =>
      if items.isEmpty then ([], 1, none)
      else if items.length < perPage then (items, 1, none)
      else
        let r := paginateFrom arrayKey perPage rest
        (items ++ r.1, r.2.1 + 1, r.2.2)

/-- Entry point matching `paginate(url, params, array_key)` with the raw
`per_page` taken from the params. -/
def paginate (arrayKey : Option String) (perPageRaw : Int) (pages : List JVal) :
    List JVal × Nat × Option PagError :=
  paginateFrom arrayKey (clampPerPage perPageRaw) pages

/-- Stopping test of the pagination loop on one page: zero yielded
records or a batch shorter than the requested page size. -/
def stopPage (arrayKey : Option String) (perPage : Nat) (d : JVal) : Bool :=
  match extractItems arrayKey d with
  | .ok items => items.isEmpty || decide (items.length < perPage)
  | .error _ => true

/-- Prefix of a list up to and including the first element satisfying the
predicate. -/
def takeThrough (p : α → Bool) : List α → List α
  | [] => []
  | a :: as => if p a then [a] else a :: takeThrough p as

/-! ## Code-scanning multi-step delete protocol (security.py lines 257-434) -/

/-- Prefix test on character lists (helper for the substring test). -/
def charsHavePre : List Char → List Char → Bool
  | [], _ => true
  | _ :: _, [] => false
  | a :: as, b :: bs => a == b && charsHavePre as bs

/-- Occurrence test on character lists (helper for the substring test). -/
def charsContain (needle : List Char) : List Char → Bool
  | [] => needle.isEmpty
  | h :: t => charsHavePre needle (h :: t) || charsContain needle t

/-- Substring test modelling Python's `needle in hay`. -/
def containsSubstr (needle hay : String) : Bool :=
  charsContain needle.toList hay.toList

/-- Python `str.lower()` (the strings involved are ASCII). -/
def lowerStr (s : String) : String := ⟨s.data.map Char.toLower⟩

/-- Embeds `"confirm_delete" in (resp.text or "").lower()`
(security.py line 299). -/
def mentionsConfirmDelete (body : String) : Bool :=
  containsSubstr "confirm_delete" (lowerStr body)

/-- Python falsiness of an optional string (`None` or the empty string). -/
def strFalsy : Option String → Bool
  | none => true
  | some s => s.isEmpty

/-- Embeds the `confirm_url or next_url` target choice
(security.py lines 331, 380): `none` corresponds to the unreachable
missing-URL branch. -/
def pickTarget (c n : Option String) : Option String :=
  if strFalsy c = false then c
  else if strFalsy n = false then n
  else none

/-- Embeds the confirm-flag enforcement on a follow-up URL
(security.py lines 349-351, 394-396). -/
def ensureConfirmFlag (url : String) : String :=
  if containsSubstr "confirm_delete=" url then url
  else if containsSubstr "?" url then url ++ "&confirm_delete=true"
  else url ++ "?confirm_delete=true"

/-- One scripted response of the mocked session for the delete protocol:
status plus the `confirm_delete_url` / `next_analysis_url` fields parsed
out of the JSON body (absent for a non-dict body). -/
structure DelResp where
  status : Nat
  confirmUrl : Option String := none
  nextUrl : Option String := none
  body : String := ""
deriving Repr, DecidableEq

/-- Terminal outcome of one `delete_analysis` run. -/
inductive DelOutcome where
  | ok
  | httpError (status : Nat) (body : String)
  | missingUrl
  | scriptEnd
deriving Repr, DecidableEq

/-- Embeds the `while follow.status_code in (200, 202)` follow-up loop of
`delete_analysis` (security.py lines 353-421), given the just-received
follow-up response and the remaining scripted responses.  The second
component accumulates the URLs DELETEd so far. -/
def followLoop : List DelResp → DelResp → List String → DelOutcome × List String
  | rs, follow, calls =>
    if follow.status = 204 then (.ok, calls)
    else if follow.status = 200 ∨ follow.status = 202 then
      if strFalsy follow.confirmUrl && strFalsy follow.nextUrl then (.ok, calls)
      else
        match pickTarget follow.confirmUrl follow.nextUrl with
        | none => (.missingUrl, calls)
        | some t =>
          match rs with
          | [] => (.scriptEnd, calls ++ [ensureConfirmFlag t])
          | f2 :: rest => followLoop rest f2 (calls ++ [ensureConfirmFlag t])
    else (.httpError follow.status follow.body, calls)

/-- Embeds the `200/202` handling of `delete_analysis`
(security.py lines 311-434) applied to the response `resp`, with `rs` the
remaining scripted responses: null URLs finish, otherwise a follow-up
DELETE is issued on the (confirm-flagged) target and the follow loop
runs; any other status is a fatal error carrying status and body. -/
def handle200 (resp : DelResp) (rs : List DelResp) (calls : List String) :
    DelOutcome × List String :=
  if resp.status = 200 ∨ resp.status = 202 then
    if strFalsy resp.confirmUrl && strFalsy resp.nextUrl then (.ok, calls)
    else
      match pickTarget resp.confirmUrl resp.nextUrl with
      | none => (.missingUrl, calls)
      | some t =>
        match rs with
        | [] => (.scriptEnd, calls ++ [ensureConfirmFlag t])
        | f :: rest => followLoop rest f (calls ++ [ensureConfirmFlag t])
  else (.httpError resp.status resp.body, calls)

/-- Embeds `GitHubSecurityClient.delete_analysis` (security.py lines
257-434) run against a finite script of mocked responses, one consumed
per DELETE call.  Returns the outcome and the ordered list of URLs the
protocol DELETEd. -/
def deleteAnalysis (basePath : String) : List DelResp → DelOutcome × List String
  | [] => (.scriptEnd, [basePath])
  | r1 :: rest =>
    if r1.status = 204 then (.ok, [basePath])
    else if r1.status = 400 && mentionsConfirmDelete r1.body then
      match rest with
      | [] => (.scriptEnd, [basePath, basePath ++ "?confirm_delete=true"])
      | r2 :: rest2 =>
        if r2.status = 204 then (.ok, [basePath, basePath ++ "?confirm_delete=true"])
        else handle200 r2 rest2 [basePath, basePath ++ "?confirm_delete=true"]
    else handle200 r1 rest [basePath]

/-! ## Tool filtering and the bulk security operations
(security.py lines 524-699) -/

/-- Embeds `is_tool_selected` (security.py lines 530-535), including the
Python falsiness of an absent or empty tool name. -/
def isToolSelected (toolName : Option String) (toolsFilter : List String) : Bool :=
  if toolsFilter.isEmpty then true
  else
    match toolName with
    | none => false
    | some t => if t.isEmpty then false else toolsFilter.contains t

/-- One code-scanning analysis record as `delete_analyses` interprets it:
an optional integer id, the `deletable` flag, and the tool name. -/
structure Analysis where
  idVal : Option Int
  deletable : Bool
  tool : Option String
deriving Repr, DecidableEq

/-- Embeds the inner `for a in gh.list_code_scanning_analyses()` search of
`delete_analyses` (security.py lines 554-571): number of records scanned
until (and including) the first tool-selected deletable one, and that
record if any. -/
def scanForDeletable (toolsFilter : List String) :
    List Analysis → Nat × Option Analysis
  | [] => (0, none)
  | a :: rest =>
    if isToolSelected a.tool toolsFilter && a.deletable then (1, some a)
    else
      let r := scanForDeletable toolsFilter rest
      (r.1 + 1, r.2)

/-- Embeds the outer `while True` loop of `delete_analyses` (security.py
lines 541-621) against a mocked client: `listings` scripts the successive
results of `list_code_scanning_analyses` (one per loop iteration, the
list being re-fetched from scratch each time) and `script` the successive
`delete_analysis` results (`true` = success, `false` = the call raised).
Returns `(scanned, deleted, deleteAttempts)`.  The function always
returns counters: the `except Exception` handler at lines 606-619 catches
every per-record failure and continues, so no error can propagate. -/
def deleteAnalysesRun (toolsFilter : List String) :
    List (List Analysis) → List Bool → Nat × Nat × Nat
  | [], _ => (0, 0, 0)
  | listing :: moreListings, script =>
    let s := scanForDeletable toolsFilter listing
    match s.2 with
    | none => (s.1, 0, 0)
    | some a =>
      match a.idVal with
      | none =>
        let r := deleteAnalysesRun toolsFilter moreListings script
        (s.1 + r.1, r.2.1, r.2.2)
      | some _ =>
        let r := deleteAnalysesRun toolsFilter moreListings script.tail
        (s.1 + r.1, (if script.headD true then 1 else 0) + r.2.1, 1 + r.2.2)

/-- One code-scanning alert record as `dismiss_alerts` interprets it. -/
structure Alert where
  number : Option Int
  tool : Option String
deriving Repr, DecidableEq

/-- Embeds the `dismiss_alerts` loop (security.py lines 624-699) against a
mocked client: `script` gives the successive `dismiss_alert` results
(`true` = success, `false` = the PATCH raised).  Returns
`(scanned, dismissed, patchAttempts)`.  A failed PATCH is caught at lines
684-697 and the loop continues. -/
def dismissRun (toolsFilter : List String) : List Alert → List Bool → Nat × Nat × Nat
  | [], _ => (0, 0, 0)
  | al :: rest, script =>
    if isToolSelected al.tool toolsFilter then
      match al.number with
      | none =>
        let r := dismissRun toolsFilter rest script
        (r.1 + 1, r.2.1, r.2.2)
      | some _ =>
        let r := dismissRun toolsFilter rest script.tail
        (r.1 + 1, (if script.headD true then 1 else 0) + r.2.1, 1 + r.2.2)
    else
      let r := dismissRun toolsFilter rest script
      (r.1 + 1, r.2.1, r.2.2)

/-! ## Uniform bulk delete orchestrators (actions.py lines 62-132,
releases.py lines 45-123, cache.py lines 46-132) -/

/-- Aggregate outcome of one bulk delete run: successful deletions
counted, skip events logged for records lacking an id, delete calls
attempted, and whether an HTTP error aborted the run. -/
structure BulkOutcome where
  total : Nat
  skips : Nat
  attempts : Nat
  aborted : Bool
deriving Repr, DecidableEq

/-- Embeds the common loop of `delete_all_completed_workflow_runs`,
`delete_all_releases` and `delete_all_actions_cache`: each listed record
is reduced to its optional identifier; a record without one is logged and
skipped; otherwise `gh_delete` is called, scripted by `script` (`true` =
success, `false` = the call raised).  On a raised delete the exception is
re-raised (`raise`), so the loop stops with the successes counted so
far. -/
def bulkRun : List (Option Nat) → List Bool → BulkOutcome
  | [], _ => ⟨0, 0, 0, false⟩
  | none :: rs, script =>
    let o := bulkRun rs script
    ⟨o.total, o.skips + 1, o.attempts, o.aborted⟩
  | some _ :: rs, script =>
    if script.headD true then
      let o := bulkRun rs script.tail
      ⟨o.total + 1, o.skips, o.attempts + 1, o.aborted⟩
    else ⟨0, 0, 1, true⟩

/-- Number of listed records carrying an identifier. -/
def countSome (records : List (Option Nat)) : Nat :=
  (records.filter Option.isSome).length

/-- Number of listed records lacking an identifier. -/
def countNone (records : List (Option Nat)) : Nat :=
  (records.filter Option.isNone).length

/-! ## Social sync set algebra (social.py lines 262-267) -/

/-- Embeds `to_follow_set = (followers - following) - block`
(social.py line 266). -/
def toFollowSet (followers following block : Finset String) : Finset String :=
  (followers \ following) \ block

/-- Embeds `to_unfollow_set = (following - followers) - allow`
(social.py line 267). -/
def toUnfollowSet (followers following allow : Finset String) : Finset String :=
  (following \ followers) \ allow

/-- Result of one mocked `follow_user`/`unfollow_user` call: the call
returned `True`, returned `False`, or raised `GitHubAPIError`. -/
inductive CallRes where
  | ok
  | no
  | raised
deriving Repr, DecidableEq

/-- Embeds one action loop of `sync_followers` (the follow loop at
social.py lines 274-289 and the structurally identical unfollow loop at
lines 292-307) over the sorted candidate usernames, scripted by one
`CallRes` per issued call.  Returns `(acted, skipped, httpAttempts)`:
dry-run records every candidate as skipped without HTTP; a raised call is
caught, recorded as skipped, and the loop continues. -/
def syncActionRun (dryRun : Bool) : List String → List CallRes → List String × Nat × Nat
  | [], _ => ([], 0, 0)
  | u :: rest, script =>
    if dryRun then
      let r := syncActionRun dryRun rest script
      (r.1, r.2.1 + 1, r.2.2)
    else
      let r := syncActionRun dryRun rest script.tail
      match script.headD .ok with
      | .ok => (u :: r.1, r.2.1, r.2.2 + 1)
      | .no => (r.1, r.2.1, r.2.2 + 1)
      | .raised => (r.1, r.2.1 + 1, r.2.2 + 1)

/-! ## Rate-limit handling (http_client.py lines 345-366,
security.py lines 158-209) -/

/-- Accumulating digit parser (helper for `parseIntStr`). -/
def digitsValGo : List Char → Nat → Option Nat
  | [], acc => some acc
  | c :: rest, acc =>
    if c.isDigit then digitsValGo rest (acc * 10 + (c.toNat - 48)) else none

/-- Models Python `int(...)` on an optional-sign digit string (the forms
rate-limit headers take; exotic accepted forms such as inner underscores
are not modelled). -/
def parseIntStr (s : String) : Option Int :=
  match s.toList with
  | [] => none
  | '-' :: rest =>
    if rest.isEmpty then none else (digitsValGo rest 0).map (fun n => -(n : Int))
  | '+' :: rest =>
    if rest.isEmpty then none else (digitsValGo rest 0).map (fun n => (n : Int))
  | cs => (digitsValGo cs 0).map (fun n => (n : Int))

/-- Embeds `_handle_rate_limit` (http_client.py lines 345-366) as the
wait it performs: `none` when no rate-limit wait occurs, `some w` when
the executor sleeps `w` seconds.  Headers are the raw optional strings,
parsed as Python `int(...)` is. -/
def httpRateLimitWait (remaining reset : Option String) (now : Int) : Option Int :=
  match remaining, reset with
  | some r, some t =>
    match parseIntStr r, parseIntStr t with
    | some ri, some ti => if ri > 0 then none else some (max 0 (ti - now) + 1)
    | _, _ => none
  | _, _ => none

/-- Embeds `GitHubSecurityClient._rate_limit_retry_if_needed`
(security.py lines 158-209) as the wait it performs before its single
retry: first the header-based computation, then the `403` fallback when
the body mentions `rate limit` (reset-based if a parsable reset header is
present, else a flat 30 seconds). -/
def secRateLimitWait (remaining reset : Option String) (status : Nat) (body : String)
    (now : Int) : Option Int :=
  let w1 : Option Int :=
    match remaining, reset with
    | some r, some t =>
      match parseIntStr r, parseIntStr t with
      | some ri, some ti => if ri ≤ 0 then some (max 0 (ti - now) + 1) else none
      | _, _ => none
    | _, _ => none
  match w1 with
  | some w => some w
  | none =>
    if status = 403 && containsSubstr "rate limit" (lowerStr body) then
      match reset with
      | some t =>
        if t.isEmpty then some 30
        else
          match parseIntStr t with
          | some ti => some (max 0 (ti - now) + 1)
          | none => some 30
      | none => some 30
    else none

/-! ## Backoff and the retry loop (http_client.py lines 157-272, 369-377;
social.py lines 400-515) -/

/-- Embeds `_backoff_seconds` (http_client.py lines 369-377 and its
verbatim twin social.py lines 505-515) over exact rationals: `frac` is
the fractional part of `time.time()`. -/
def backoffSeconds (attempt : Nat) (frac : ℚ) : ℚ :=
  let base : ℚ := min 30 ((1 / 2) * 2 ^ (attempt - 1))
  let jitter : ℚ := base * (1 / 10)
  max 0 (base + jitter * (2 * frac - 1))

/-- The deterministic base of the backoff, before jitter. -/
def backoffBase (attempt : Nat) : ℚ := min 30 ((1 / 2) * 2 ^ (attempt - 1))

/-- One scripted step of the mocked transport inside `request`
(http_client.py lines 157-272): a response with a status, or a
network-level `requests.RequestException`. -/
inductive ReqStep where
  | resp (status : Nat)
  | netErr
deriving Repr, DecidableEq

/-- Terminal result of the `request` retry loop: the response returned
(with the total attempt count), the network exception re-raised after the
retry ceiling, or an exhausted script. -/
inductive LoopResult where
  | returned (status attempts : Nat)
  | raised (attempts : Nat)
  | scriptEnd
deriving Repr, DecidableEq

/-- Statuses `request` retries on (http_client.py line 59). -/
def retryableStatus : List Nat := [429, 500, 502, 503, 504]

/-- Embeds the `while True` retry loop of `request` (http_client.py lines
203-272) with `n` prior attempts: an expected status returns; a retryable
status (or a network exception) with `attempt ≤ 5` backs off and retries;
a non-retryable unexpected status is returned as-is; a network exception
past the ceiling is re-raised. -/
def requestLoopGo (expected : List Nat) : List ReqStep → Nat → LoopResult
  | [], _ => .scriptEnd
  | .resp s :: rest, n =>
    if s ∈ expected then .returned s (n + 1)
    else if s ∈ retryableStatus ∧ n + 1 ≤ 5 then requestLoopGo expected rest (n + 1)
    else .returned s (n + 1)
  | .netErr :: rest, n =>
    if n + 1 ≤ 5 then requestLoopGo expected rest (n + 1) else .raised (n + 1)

/-- Entry point of the retry loop with the default expected-status set
`{200, 201, 202, 204}` (http_client.py line 196). -/
def requestLoop (script : List ReqStep) : LoopResult :=
  requestLoopGo [200, 201, 202, 204] script 0

/-! ## Redaction (structured_logging.py lines 215-258, 412-438) -/

/-- Keys whose values are redacted (`_SENSITIVE_KEYS`,
structured_logging.py lines 215-228). -/
def sensitiveKeys : List String :=
  ["token", "github_token", "gh_token", "authorization", "password", "secret",
   "api_key", "apikey", "access_key", "private_key", "client_secret",
   "refresh_token"]

/-- Embeds `_redact_value` (structured_logging.py lines 231-242) on the
character list of the stringified value: empty stays empty, length ≤ 8
becomes `***`, else first four + `***` + last four. -/
def redactChars (s : List Char) : List Char :=
  if s.isEmpty then s
  else if s.length ≤ 8 then ['*', '*', '*']
  else s.take 4 ++ ['*', '*', '*'] ++ s.drop (s.length - 4)

/-- Embeds `_redact_payload` (structured_logging.py lines 245-258) on a
payload whose values are already strings: a key matching the sensitive
set case-insensitively has its value redacted, every other entry passes
through unchanged.  `log_event` (lines 412-438) emits exactly this
redacted payload in the log record. -/
def redactPayload (payload : List (String × List Char)) : List (String × List Char) :=
  payload.map (fun kv =>
    if sensitiveKeys.contains (lowerStr kv.1) then (kv.1, redactChars kv.2) else kv)

/-! ## Social paginator (social.py lines 350-398, 528-541) -/

/-- Python `s.split(",")` on a character list. -/
def splitOnComma : List Char → List (List Char)
  | [] => [[]]
  | c :: rest =>
    let r := splitOnComma rest
    if c == ',' then [] :: r
    else (c :: r.headD []) :: r.tail

/-- Whitespace characters `str.strip()` removes (the ASCII ones). -/
def isPySpace (c : Char) : Bool :=
  c == ' ' || c == '\t' || c == '\n' || c == '\r'

/-- Python `str.strip()` on a character list. -/
def trimChars (s : List Char) : List Char :=
  ((s.dropWhile isPySpace).reverse.dropWhile isPySpace).reverse

/-- Embeds `_has_link_next` (social.py lines 528-541): split the `Link`
header on commas, strip each part, and look for a part containing
`rel="next"`. -/
def hasLinkNext (linkHeader : String) : Bool :=
  if linkHeader.isEmpty then false
  else (splitOnComma linkHeader.toList).any
    (fun p => charsContain "rel=\"next\"".toList (trimChars p))

/-- Embeds `GitHubSocialService._paginate` (social.py lines 350-398) run
against a finite script of pages, each a JSON body plus the response's
`Link` header.  Returns the collected dict-typed elements and the number
of pages fetched, or the error raised on a non-array body.  An exhausted
script corresponds to the server answering an empty page without a
`next` link. -/
def socialPaginate (pageSize : Nat) :
    List (JVal × String) → Except String (List JVal × Nat)
  | [] => .ok ([], 0)
  | (body, link) :: rest =>
    match body with
    | .arr xs =>
      let batch := onlyDicts xs
      if batch.length < pageSize && !hasLinkNext link then .ok (batch, 1)
      else
        match socialPaginate pageSize rest with
        | .ok (more, n) => .ok (batch ++ more, n + 1)
        | .error e => .error e
    | _ => .error "Risposta inattesa in paginazione"

/-- Stopping test of the social paginator on one page: dict batch shorter
than the page size and no advertised `rel="next"` link. -/
def socialStop (pageSize : Nat) (page : JVal × String) : Bool :=
  match page.1 with
  | .arr xs => decide ((onlyDicts xs).length < pageSize) && !hasLinkNext page.2
  | _ => true

/-- Dict elements one social page contributes. -/
def socialPageItems (page : JVal × String) : List JVal :=
  match page.1 with
  | .arr xs => onlyDicts xs
  | _ => []

/-! ## clear_vulns dispatch (security.py lines 705-784) -/

/-- Valid dismiss reasons (security.py line 767). -/
def validReasons : List String := ["false_positive", "won\x27t_fix", "used_in_tests"]

/-- Counters reported by `clear_vulns`. -/
inductive ClearResult where
  | deleteDone (scanned deleted : Nat)
  | dismissDone (scanned dismissed : Nat)
deriving Repr, DecidableEq

/-- Embeds the mode dispatch and validation of `clear_vulns`
(security.py lines 760-784) with an injected session (the spec's external
collaborator), running against the mocked client data of
`deleteAnalysesRun` / `dismissRun`.  The second component counts HTTP
calls issued by the selected operation (listing fetches, collapsed to one
per listing, plus per-record action calls); both error branches are
reached before any listing or action call, hence pair with `0`. -/
def clearVulns (mode reason : String) (toolsFilter : List String)
    (listings : List (List Analysis)) (alerts : List Alert)
    (delScript patchScript : List Bool) : Except String ClearResult × Nat :=
  if mode = "delete" then
    let r := deleteAnalysesRun toolsFilter listings delScript
    (.ok (.deleteDone r.1 r.2.1), listings.length + r.2.2)
  else if mode = "dismiss" then
    if validReasons.contains reason then
      let r := dismissRun toolsFilter alerts patchScript
      (.ok (.dismissDone r.1 r.2.1), 1 + r.2.2)
    else (.error "Reason non valida", 0)
  else (.error "mode deve essere delete o dismiss", 0)

/-! ## Helper lemmas -/

theorem countSome_cons_some (i : Nat) (rs : List (Option Nat)) :
    countSome (some i :: rs) = countSome rs + 1 := by
  simp [countSome]

theorem countSome_cons_none (rs : List (Option Nat)) :
    countSome (none :: rs) = countSome rs := by
  simp [countSome]

theorem countNone_cons_some (i : Nat) (rs : List (Option Nat)) :
    countNone (some i :: rs) = countNone rs := by
  simp [countNone]

theorem countNone_cons_none (rs : List (Option Nat)) :
    countNone (none :: rs) = countNone rs + 1 := by
  simp [countNone]

/-- With no scripted failure, the common bulk delete loop deletes every
record carrying an identifier and skips every record without one. -/
theorem bulkRun_no_failures : ∀ records : List (Option Nat),
    bulkRun records [] =
      ⟨countSome records, countNone records, countSome records, false⟩
  | [] => by simp [bulkRun, countSome, countNone]
  | none :: rs => by
    have ih := bulkRun_no_failures rs
    simp [bulkRun, ih, countSome_cons_none, countNone_cons_none]
  | some i :: rs => by
    have ih := bulkRun_no_failures rs
    simp [bulkRun, ih, countSome_cons_some, countNone_cons_some]

/-- When the `(k+1)`-st delete call raises, the bulk loop stops there with
exactly `k` deletions counted. -/
theorem bulkRun_abort : ∀ (records : List (Option Nat)) (k : Nat),
    k + 1 ≤ countSome records →
    (bulkRun records (List.replicate k true ++ [false])).total = k ∧
    (bulkRun records (List.replicate k true ++ [false])).attempts = k + 1 ∧
    (bulkRun records (List.replicate k true ++ [false])).aborted = true
  | [], k, h => by simp [countSome] at h
  | none :: rs, k, h => by
    rw [countSome_cons_none] at h
    have ih := bulkRun_abort rs k h
    simpa [bulkRun] using ih
  | some i :: rs, 0, h => by
    simp [bulkRun]
  | some i :: rs, k + 1, h => by
    rw [countSome_cons_some] at h
    have ih := bulkRun_abort rs k (by omega)
    simpa [bulkRun, List.replicate] using ih

/-- A single deletable analysis whose delete keeps raising: every
iteration of the `delete_analyses` loop catches the failure and keeps
going, so `n` scripted failures produce `n` delete attempts and a normal
return. -/
theorem deleteAnalysesRun_continues (a : Analysis) (i : Int)
    (hid : a.idVal = some i) (hdel : a.deletable = true) :
    ∀ n : Nat,
      deleteAnalysesRun [] (List.replicate n [a] ++ [[]]) (List.replicate n false) =
        (n, 0, n)
  | 0 => by simp [deleteAnalysesRun, scanForDeletable]
  | n + 1 => by
    have ih := deleteAnalysesRun_continues a i hid hdel n
    simp [deleteAnalysesRun, scanForDeletable, isToolSelected, hdel, hid, ih,
      List.replicate]
    omega

/-- `dismiss_alerts` scans every alert and attempts a PATCH on every
selected well-formed one, regardless of scripted per-alert failures. -/
theorem dismissRun_counts (tf : List String) :
    ∀ (alerts : List Alert) (script : List Bool),
      (dismissRun tf alerts script).1 = alerts.length ∧
      (dismissRun tf alerts script).2.2 =
        (alerts.filter (fun al => isToolSelected al.tool tf && al.number.isSome)).length
  | [], script => by simp [dismissRun]
  | al :: rest, script => by
    cases hsel : isToolSelected al.tool tf with
    | false =>
      have ih := dismissRun_counts tf rest script
      simp [dismissRun, hsel, ih.1, ih.2]
    | true =>
      cases hnum : al.number with
      | none =>
        have ih := dismissRun_counts tf rest script
        simp [dismissRun, hsel, hnum, ih.1, ih.2]
      | some v =>
        have ih := dismissRun_counts tf rest script.tail
        simp [dismissRun, hsel, hnum, ih.1, ih.2]
        omega

/-- The `sync_followers` action loops issue one HTTP call per candidate
regardless of scripted per-user failures. -/
theorem syncActionRun_attempts :
    ∀ (users : List String) (script : List CallRes),
      (syncActionRun false users script).2.2 = users.length
  | [], _ => rfl
  | u :: rest, [] => by
    have ih := syncActionRun_attempts rest []
    simp [syncActionRun, ih]
  | u :: rest, c :: cs => by
    have ih := syncActionRun_attempts rest cs
    cases c <;> simp [syncActionRun, ih]

/-- Under a field list with no array-typed value, every successful lookup
returns a non-array value. -/
theorem lookupField_not_arr : ∀ fs : List (String × JVal),
    (∀ p ∈ fs, isArr p.2 = false) → ∀ (k : String) (v : JVal),
    lookupField fs k = some v → isArr v = false
  | [], _, k, v, hl => by simp [lookupField] at hl
  | (k', v') :: rest, h, k, v, hl => by
    by_cases hk : k' = k
    · rw [lookupField, if_pos hk] at hl
      cases hl
      exact h (k', v') (List.mem_cons_self _ _)
    · rw [lookupField, if_neg hk] at hl
      exact lookupField_not_arr rest (fun q hq => h q (List.mem_cons_of_mem _ hq)) k v hl

/-- A field list with no array-typed value has no first array value. -/
theorem firstArrayValue_none : ∀ fs : List (String × JVal),
    (∀ p ∈ fs, isArr p.2 = false) → firstArrayValue fs = none
  | [], _ => rfl
  | (k, v) :: rest, h => by
    have hv := h (k, v) (List.mem_cons_self _ _)
    have ihr := firstArrayValue_none rest (fun q hq => h q (List.mem_cons_of_mem _ hq))
    cases v with
    | arr xs => simp [isArr] at hv
    | null => simpa [firstArrayValue] using ihr
    | jbool b => simpa [firstArrayValue] using ihr
    | num n => simpa [firstArrayValue] using ihr
    | str s => simpa [firstArrayValue] using ihr
    | obj f => simpa [firstArrayValue] using ihr

/-- The generic paginator equals its page-prefix specification whenever
every page normalises without error: it yields the concatenated records
of the pages up to and including the first empty-or-short page. -/
theorem paginateFrom_spec (ak : Option String) (pp : Nat) :
    ∀ pages : List JVal, (∀ d ∈ pages, (extractItems ak d).isOk = true) →
      paginateFrom ak pp pages =
        (((takeThrough (stopPage ak pp) pages).map (pageItems ak)).flatten,
         (takeThrough (stopPage ak pp) pages).length, none)
  | [], _ => by simp [paginateFrom, takeThrough]
  | d :: rest, hok => by
    have hd := hok d (List.mem_cons_self _ _)
    have hr : ∀ p ∈ rest, (extractItems ak p).isOk = true :=
      fun p hp => hok p (List.mem_cons_of_mem _ hp)
    cases hext : extractItems ak d with
    | error e =>
      rw [hext] at hd
      simp [Except.isOk, Except.toBool] at hd
    | ok items =>
      have ih := paginateFrom_spec ak pp rest hr
      by_cases hemp : items.isEmpty = true
      · have hnil : items = [] := List.isEmpty_iff.mp hemp
        subst hnil
        simp [paginateFrom, hext, takeThrough, stopPage, pageItems]
      · by_cases hlt : items.length < pp
        · simp [paginateFrom, hext, hemp, hlt, takeThrough, stopPage, pageItems]
        · simp [paginateFrom, hext, hemp, hlt, takeThrough, stopPage, pageItems, ih]

/-- On a value of length at least nine the redacted form keeps the first
and last four characters around a `***` core. -/
theorem redactChars_long (s : List Char) (h9 : 9 ≤ s.length) :
    redactChars s = s.take 4 ++ ['*', '*', '*'] ++ s.drop (s.length - 4) := by
  have hne : s.isEmpty = false := by
    cases s with
    | nil => simp at h9
    | cons a as => rfl
  rw [redactChars, hne]
  simp only [Bool.false_eq_true, if_false]
  rw [if_neg (by omega)]

/-- A sensitive value at least nine characters long containing no `*`
never occurs in its redacted form: an occurrence would have to cover the
`***` core, forcing a `*` inside the value. -/
theorem redactChars_no_occurrence (s : List Char) (h9 : 9 ≤ s.length)
    (hstar : '*' ∉ s) : ¬ s <:+: redactChars s := by
  intro hinf
  have hsub := hinf.sublist
  have hcount := List.Sublist.countP_le (fun c => !(c == '*')) hsub
  have hs_count : List.countP (fun c => !(c == '*')) s = s.length := by
    rw [List.countP_eq_length]
    intro a ha
    simp only [Bool.not_eq_true', beq_eq_false_iff_ne, ne_eq]
    intro h
    exact hstar (h ▸ ha)
  rw [redactChars_long s h9, List.countP_append, List.countP_append, hs_count]
    at hcount
  have h1 : List.countP (fun c => !(c == '*')) (s.take 4) ≤ 4 := by
    calc List.countP (fun c => !(c == '*')) (s.take 4) ≤ (s.take 4).length :=
          List.countP_le_length _
      _ ≤ 4 := by rw [List.length_take]; omega
  have h2 : List.countP (fun c => !(c == '*')) ['*', '*', '*'] = 0 := by decide
  have h3 : List.countP (fun c => !(c == '*')) (s.drop (s.length - 4)) ≤ 4 := by
    calc List.countP (fun c => !(c == '*')) (s.drop (s.length - 4)) ≤
          (s.drop (s.length - 4)).length := List.countP_le_length _
      _ ≤ 4 := by rw [List.length_drop]; omega
  omega

/-- The social paginator equals its page-prefix specification whenever
every scripted body is an array: it collects the dict elements of the
pages up to and including the first page that is both short and without a
`rel="next"` link. -/
theorem socialPaginate_spec (pageSize : Nat) :
    ∀ pages : List (JVal × String), (∀ p ∈ pages, isArr p.1 = true) →
      socialPaginate pageSize pages =
        .ok (((takeThrough (socialStop pageSize) pages).map socialPageItems).flatten,
             (takeThrough (socialStop pageSize) pages).length)
  | [], _ => by simp [socialPaginate, takeThrough]
  | (body, link) :: rest, hok => by
    have hb := hok (body, link) (List.mem_cons_self _ _)
    have hr : ∀ p ∈ rest, isArr p.1 = true :=
      fun p hp => hok p (List.mem_cons_of_mem _ hp)
    cases body with
    | arr xs =>
      have ih := socialPaginate_spec pageSize rest hr
      cases hcond : (decide ((onlyDicts xs).length < pageSize) && !hasLinkNext link) with
      | true => simp [socialPaginate, socialStop, takeThrough, hcond, socialPageItems]
      | false =>
        simp [socialPaginate, socialStop, takeThrough, hcond, socialPageItems, ih]
    | null => simp [isArr] at hb
    | jbool b => simp [isArr] at hb
    | num n => simp [isArr] at hb
    | str s => simp [isArr] at hb
    | obj fs => simp [isArr] at hb

/-! ## Claim theorems -/

/-- C2: `delete_analysis` follows the multi-step protocol: a
`200(confirm A) → 200(confirm B) → 204` chain makes exactly 3 DELETE
calls and succeeds; a first `200` with both continuation URLs absent
makes exactly 1 DELETE call and succeeds; a `400` first response whose
body mentions `confirm_delete` triggers exactly one retry DELETE with the
`confirm_delete=true` flag; any other first status fails with an error
carrying that status and body. -/
theorem delete_analysis_protocol :
    (deleteAnalysis "/repos/o/r/code-scanning/analyses/7"
        [⟨200, some "https://api/x/1?a=1", none, ""⟩,
         ⟨200, some "https://api/x/2", none, ""⟩,
         ⟨204, none, none, ""⟩] =
      (.ok, ["/repos/o/r/code-scanning/analyses/7",
             "https://api/x/1?a=1&confirm_delete=true",
             "https://api/x/2?confirm_delete=true"]))
  ∧ (deleteAnalysis "/repos/o/r/code-scanning/analyses/7"
        [⟨200, none, none, ""⟩] =
      (.ok, ["/repos/o/r/code-scanning/analyses/7"]))
  ∧ (deleteAnalysis "/repos/o/r/code-scanning/analyses/7"
        [⟨400, none, none, "must set confirm_delete"⟩, ⟨204, none, none, ""⟩] =
      (.ok, ["/repos/o/r/code-scanning/analyses/7",
             "/repos/o/r/code-scanning/analyses/7?confirm_delete=true"]))
  ∧ (∀ (basePath : String) (r : DelResp) (rest : List DelResp),
      r.status ≠ 200 → r.status ≠ 202 → r.status ≠ 204 →
      (r.status = 400 → mentionsConfirmDelete r.body = false) →
      deleteAnalysis basePath (r :: rest) =
        (.httpError r.status r.body, [basePath])) := by
  refine ⟨rfl, rfl, rfl, ?_⟩
  intro basePath r rest h200 h202 h204 h400
  have hb : (decide (r.status = 400) && mentionsConfirmDelete r.body) = false := by
    by_cases h : r.status = 400
    · simp [h, h400 h]
    · simp [h]
  simp only [deleteAnalysis, if_neg h204, hb, Bool.false_eq_true, if_false, handle200]
  rw [if_neg (by tauto)]

/-- Witness for C2 at a concrete `404` first response. -/
theorem delete_analysis_protocol_witness :
    deleteAnalysis "/b" [⟨404, none, none, "nf"⟩] =
      (.httpError 404 "nf", ["/b"]) :=
  delete_analysis_protocol.2.2.2 "/b" ⟨404, none, none, "nf"⟩ []
    (by decide) (by decide) (by decide) (fun h => by simp at h)

/-- C3 counterexample: a mocked run of `delete_analyses` in which the
first `delete_analysis` call raises performs a second delete attempt and
returns counters normally — the per-record failure is caught
(security.py lines 606-619) instead of aborting the run by propagating
the error as the claim states. -/
theorem delete_analyses_counterexample :
    deleteAnalysesRun []
      [[⟨some 1, true, some "Trivy"⟩], [⟨some 1, true, some "Trivy"⟩], []]
      [false, false] = (2, 0, 2) ∧
    (deleteAnalysesRun []
      [[⟨some 1, true, some "Trivy"⟩], [⟨some 1, true, some "Trivy"⟩], []]
      [false, false]).2.2 ≠ 1 :=
  ⟨rfl, by decide⟩

/-- C3 (amended): the per-record failure policy differs by operation as
follows — the `gh_delete`-based deletion orchestrators (workflow runs,
releases, caches) abort the whole run on an HTTP failure by propagating
the error, while the bulk code-scanning `delete_analyses` loop, alert
dismissal (`dismiss_alerts`) and social sync (`sync_followers`) catch a
per-record API error, record it, and continue with the remaining
records. -/
theorem failure_policy_by_operation :
    (∀ (records : List (Option Nat)) (m : Nat),
      m + 1 ≤ countSome records →
      (bulkRun records (List.replicate m true ++ [false])).attempts = m + 1 ∧
      (bulkRun records (List.replicate m true ++ [false])).aborted = true)
  ∧ (∀ (a : Analysis) (i : Int), a.idVal = some i → a.deletable = true →
      ∀ n : Nat,
        deleteAnalysesRun [] (List.replicate n [a] ++ [[]]) (List.replicate n false) =
          (n, 0, n))
  ∧ (∀ (tf : List String) (alerts : List Alert) (script : List Bool),
      (dismissRun tf alerts script).1 = alerts.length ∧
      (dismissRun tf alerts script).2.2 =
        (alerts.filter (fun al => isToolSelected al.tool tf && al.number.isSome)).length)
  ∧ (∀ (users : List String) (script : List CallRes),
      (syncActionRun false users script).2.2 = users.length) :=
  ⟨fun records m h => (bulkRun_abort records m h).2,
   fun a i hid hdel n => deleteAnalysesRun_continues a i hid hdel n,
   dismissRun_counts, syncActionRun_attempts⟩

/-- Witness for C3 at concrete records and scripts. -/
theorem failure_policy_by_operation_witness :
    0 + 1 ≤ countSome [some 5] ∧
    ((bulkRun [some 5] [false]).attempts = 0 + 1 ∧
     (bulkRun [some 5] [false]).aborted = true) ∧
    deleteAnalysesRun []
      [[⟨some 1, true, some "Trivy"⟩], [⟨some 1, true, some "Trivy"⟩], []]
      [false, false] = (2, 0, 2) ∧
    ((dismissRun [] [⟨some 3, some "Trivy"⟩] [false]).1 = 1 ∧
     (dismissRun [] [⟨some 3, some "Trivy"⟩] [false]).2.2 = 1) ∧
    (syncActionRun false ["u1", "u2"] [.raised, .ok]).2.2 = 2 :=
  ⟨by decide,
   failure_policy_by_operation.1 [some 5] 0 (by decide),
   failure_policy_by_operation.2.1 ⟨some 1, true, some "Trivy"⟩ 1 rfl rfl 2,
   failure_policy_by_operation.2.2.1 [] [⟨some 3, some "Trivy"⟩] [false],
   failure_policy_by_operation.2.2.2 ["u1", "u2"] [.raised, .ok]⟩

/-- C4: for the uniform bulk delete orchestrators (workflow runs,
releases, caches): with all deletes succeeding the reported total equals
the number of records carrying an identifier (so `N` for `N` valid
records, `N − K` when `K` lack the identifier) with one skip event per
identifier-less record and no abort; and when the `(m+1)`-st delete call
raises, exactly `m` successful deletions have been counted, no further
delete is attempted, and the error propagates. -/
theorem bulk_delete_counts :
    (∀ records : List (Option Nat),
      bulkRun records [] =
        ⟨countSome records, countNone records, countSome records, false⟩)
  ∧ (∀ (records : List (Option Nat)) (m : Nat),
      m + 1 ≤ countSome records →
      (bulkRun records (List.replicate m true ++ [false])).total = m ∧
      (bulkRun records (List.replicate m true ++ [false])).attempts = m + 1 ∧
      (bulkRun records (List.replicate m true ++ [false])).aborted = true) :=
  ⟨bulkRun_no_failures, bulkRun_abort⟩

/-- Witness for C4: four records, one without an id; the second delete
call raises. -/
theorem bulk_delete_counts_witness :
    bulkRun [some 10, none, some 20, some 30] [] = ⟨3, 1, 3, false⟩ ∧
    1 + 1 ≤ countSome [some 10, none, some 20, some 30] ∧
    (bulkRun [some 10, none, some 20, some 30] [true, false]).total = 1 ∧
    (bulkRun [some 10, none, some 20, some 30] [true, false]).attempts = 2 ∧
    (bulkRun [some 10, none, some 20, some 30] [true, false]).aborted = true :=
  ⟨bulk_delete_counts.1 [some 10, none, some 20, some 30], by decide,
   bulk_delete_counts.2 [some 10, none, some 20, some 30] 1 (by decide)⟩

/-- C5: `sync_followers` computes `to_follow = (F − G) − B` and
`to_unfollow = (G − F) − A`, always disjoint from the blocklist and
allowlist respectively; on `F={a,b,c}`, `G={b,c,d}`, `B={a}`, `A={d}`
both sets are empty, and with empty exclusion lists `to_follow={a}` and
`to_unfollow={d}`. -/
theorem sync_set_algebra :
    (∀ f g b : Finset String, Disjoint (toFollowSet f g b) b)
  ∧ (∀ f g a : Finset String, Disjoint (toUnfollowSet f g a) a)
  ∧ (∀ (f g b : Finset String) (x : String),
      x ∈ toFollowSet f g b ↔ x ∈ f ∧ x ∉ g ∧ x ∉ b)
  ∧ (∀ (f g a : Finset String) (x : String),
      x ∈ toUnfollowSet f g a ↔ x ∈ g ∧ x ∉ f ∧ x ∉ a)
  ∧ toFollowSet {"a", "b", "c"} {"b", "c", "d"} {"a"} = ∅
  ∧ toUnfollowSet {"a", "b", "c"} {"b", "c", "d"} {"d"} = ∅
  ∧ toFollowSet {"a", "b", "c"} {"b", "c", "d"} ∅ = {"a"}
  ∧ toUnfollowSet {"a", "b", "c"} {"b", "c", "d"} ∅ = {"d"} := by
  refine ⟨fun _ _ _ => Finset.sdiff_disjoint, fun _ _ _ => Finset.sdiff_disjoint,
    ?_, ?_, ?_, ?_, ?_, ?_⟩
  · intro f g b x; simp [toFollowSet, Finset.mem_sdiff, and_assoc]
  · intro f g a x; simp [toUnfollowSet, Finset.mem_sdiff, and_assoc]
  all_goals decide

/-- C6: in dismiss mode an invalid reason raises a domain error with zero
HTTP calls issued (no alerts fetched, no PATCH sent); an unsupported mode
likewise raises a domain error with zero HTTP calls. -/
theorem clear_vulns_validation :
    (∀ (reason : String) (tf : List String) (listings : List (List Analysis))
        (alerts : List Alert) (ds ps : List Bool),
      validReasons.contains reason = false →
      clearVulns "dismiss" reason tf listings alerts ds ps =
        (.error "Reason non valida", 0))
  ∧ (∀ (mode reason : String) (tf : List String) (listings : List (List Analysis))
        (alerts : List Alert) (ds ps : List Bool),
      mode ≠ "delete" → mode ≠ "dismiss" →
      clearVulns mode reason tf listings alerts ds ps =
        (.error "mode deve essere delete o dismiss", 0)) := by
  constructor
  · intro reason tf listings alerts ds ps h
    simp [clearVulns, h]
    simpa using h
  · intro mode reason tf listings alerts ds ps h1 h2
    simp [clearVulns, h1, h2]

/-- C1 counterexample: on an object page carrying `workflow_runs` with a
supplied `array_key` that matches nothing, the claimed cascade would
extract via the hardcoded `workflow_runs` fallback, but the code skips
the hardcoded keys entirely (they are consulted only when `array_key` is
`None`, api.py lines 131-135) and takes the first array-valued entry
instead. -/
theorem paginate_fallback_counterexample :
    extractItems (some "zzz")
      (.obj [("a", .arr [.str "x"]), ("workflow_runs", .arr [.obj []])]) = .ok []
  ∧ extractItemsClaim (some "zzz")
      (.obj [("a", .arr [.str "x"]), ("workflow_runs", .arr [.obj []])]) =
      .ok [.obj []]
  ∧ extractItems (some "zzz")
      (.obj [("a", .arr [.str "x"]), ("workflow_runs", .arr [.obj []])]) ≠
    extractItemsClaim (some "zzz")
      (.obj [("a", .arr [.str "x"]), ("workflow_runs", .arr [.obj []])]) := by
  refine ⟨rfl, rfl, fun h => ?_⟩
  have h2 : (Except.ok [] : Except PagError (List JVal)) = .ok [JVal.obj []] := h
  injection h2 with h3
  exact List.noConfusion h3

/-- C1 (amended): `paginate` yields exactly the concatenation, in order,
of the mapping-typed elements of the fetched pages and terminates after
the first page whose yielded records are zero in number or fewer than the
clamped-to-[1,100] page size; for an object page it extracts the array at
the caller's `array_key` when that key holds an array, consults the
hardcoded fallback keys `workflow_runs`/`caches` only when no `array_key`
was supplied, otherwise falls back to the first array-valued entry, and
raises a fatal error naming the available keys when no array is found. -/
theorem paginate_amended :
    (∀ v : Int, 1 ≤ clampPerPage v ∧ clampPerPage v ≤ 100)
  ∧ (∀ (ak : Option String) (ppRaw : Int) (pages : List JVal),
      (∀ d ∈ pages, (extractItems ak d).isOk = true) →
      paginate ak ppRaw pages =
        (((takeThrough (stopPage ak (clampPerPage ppRaw)) pages).map
            (pageItems ak)).flatten,
         (takeThrough (stopPage ak (clampPerPage ppRaw)) pages).length, none))
  ∧ (∀ (ak : Option String) (xs : List JVal),
      extractItems ak (.arr xs) = .ok (onlyDicts xs))
  ∧ (∀ (fs : List (String × JVal)) (k : String) (xs : List JVal),
      lookupField fs k = some (.arr xs) →
      extractItems (some k) (.obj fs) = .ok (onlyDicts xs))
  ∧ (∀ (fs : List (String × JVal)) (xs : List JVal),
      lookupField fs "workflow_runs" = some (.arr xs) →
      extractItems none (.obj fs) = .ok (onlyDicts xs))
  ∧ (∀ (fs : List (String × JVal)) (xs : List JVal),
      lookupField fs "workflow_runs" = none →
      lookupField fs "caches" = some (.arr xs) →
      extractItems none (.obj fs) = .ok (onlyDicts xs))
  ∧ (∀ (fs : List (String × JVal)) (k : String),
      arrAt fs k = none →
      extractItems (some k) (.obj fs) = fallbackFirstList fs)
  ∧ (∀ (ak : Option String) (fs : List (String × JVal)),
      (∀ p ∈ fs, isArr p.2 = false) →
      extractItems ak (.obj fs) = .error (.noArrayKey (fs.map Prod.fst)))
  ∧ (∀ (ak : Option String) (n : Int),
      extractItems ak (.num n) = .error .badType) := by
  refine ⟨?_, ?_, fun _ _ => rfl, ?_, ?_, ?_, ?_, ?_, fun _ _ => rfl⟩
  · intro v
    refine ⟨?_, ?_⟩ <;> (simp only [clampPerPage]; omega)
  · intro ak ppRaw pages hok
    exact paginateFrom_spec ak (clampPerPage ppRaw) pages hok
  · intro fs k xs h
    simp [extractItems, h]
  · intro fs xs h
    simp [extractItems, h]
  · intro fs xs h1 h2
    simp [extractItems, h1, h2]
  · intro fs k h
    cases hl : lookupField fs k with
    | none => simp [extractItems, hl]
    | some v =>
      cases v with
      | arr xs => simp [arrAt, hl] at h
      | null => simp [extractItems, hl]
      | jbool b => simp [extractItems, hl]
      | num n => simp [extractItems, hl]
      | str s => simp [extractItems, hl]
      | obj f => simp [extractItems, hl]
  · intro ak fs h
    have hfa := firstArrayValue_none fs h
    cases ak with
    | some k =>
      cases hl : lookupField fs k with
      | none => simp [extractItems, hl, fallbackFirstList, hfa]
      | some v =>
        have hv := lookupField_not_arr fs h k v hl
        cases v with
        | arr xs => simp [isArr] at hv
        | null => simp [extractItems, hl, fallbackFirstList, hfa]
        | jbool b => simp [extractItems, hl, fallbackFirstList, hfa]
        | num n => simp [extractItems, hl, fallbackFirstList, hfa]
        | str s => simp [extractItems, hl, fallbackFirstList, hfa]
        | obj f => simp [extractItems, hl, fallbackFirstList, hfa]
    | none =>
      cases hwr : lookupField fs "workflow_runs" with
      | some v =>
        have hv := lookupField_not_arr fs h _ v hwr
        cases v with
        | arr xs => simp [isArr] at hv
        | null => simp [extractItems, hwr, fallbackFirstList, hfa]
        | jbool b => simp [extractItems, hwr, fallbackFirstList, hfa]
        | num n => simp [extractItems, hwr, fallbackFirstList, hfa]
        | str s => simp [extractItems, hwr, fallbackFirstList, hfa]
        | obj f => simp [extractItems, hwr, fallbackFirstList, hfa]
      | none =>
        cases hc : lookupField fs "caches" with
        | some v =>
          have hv := lookupField_not_arr fs h _ v hc
          cases v with
          | arr xs => simp [isArr] at hv
          | null => simp [extractItems, hwr, hc, fallbackFirstList, hfa]
          | jbool b => simp [extractItems, hwr, hc, fallbackFirstList, hfa]
          | num n => simp [extractItems, hwr, hc, fallbackFirstList, hfa]
          | str s => simp [extractItems, hwr, hc, fallbackFirstList, hfa]
          | obj f => simp [extractItems, hwr, hc, fallbackFirstList, hfa]
        | none => simp [extractItems, hwr, hc, fallbackFirstList, hfa]

/-- Witness for C1 at concrete pages and field lists. -/
theorem paginate_amended_witness :
    (1 ≤ clampPerPage 250 ∧ clampPerPage 250 ≤ 100) ∧
    ((∀ d ∈ [JVal.arr [.obj [], .obj []], .arr [.obj [], .str "x"]],
        (extractItems none d).isOk = true) ∧
      paginate none 2 [JVal.arr [.obj [], .obj []], .arr [.obj [], .str "x"]] =
        ([.obj [], .obj [], .obj []], 2, none)) ∧
    (lookupField [("items", JVal.arr [.obj []])] "items" = some (.arr [.obj []]) ∧
      extractItems (some "items") (.obj [("items", .arr [.obj []])]) =
        .ok [.obj []]) ∧
    (lookupField [("workflow_runs", JVal.arr [.obj []])] "workflow_runs" =
        some (.arr [.obj []]) ∧
      extractItems none (.obj [("workflow_runs", .arr [.obj []])]) = .ok [.obj []]) ∧
    (lookupField [("caches", JVal.arr [.obj []])] "workflow_runs" = none ∧
      lookupField [("caches", JVal.arr [.obj []])] "caches" = some (.arr [.obj []]) ∧
      extractItems none (.obj [("caches", .arr [.obj []])]) = .ok [.obj []]) ∧
    (arrAt [("b", JVal.arr [.obj []])] "zzz" = none ∧
      extractItems (some "zzz") (.obj [("b", .arr [.obj []])]) =
        fallbackFirstList [("b", .arr [.obj []])]) ∧
    ((∀ p ∈ [("message", JVal.str "not found")], isArr p.2 = false) ∧
      extractItems none (.obj [("message", .str "not found")]) =
        .error (.noArrayKey ["message"])) :=
  ⟨⟨(paginate_amended.1 250).1, (paginate_amended.1 250).2⟩,
   ⟨by decide,
    paginate_amended.2.1 none 2 [JVal.arr [.obj [], .obj []], .arr [.obj [], .str "x"]]
      (by decide)⟩,
   ⟨rfl, paginate_amended.2.2.2.1 [("items", .arr [.obj []])] "items" [.obj []] rfl⟩,
   ⟨rfl, paginate_amended.2.2.2.2.1 [("workflow_runs", .arr [.obj []])] [.obj []] rfl⟩,
   ⟨rfl, rfl,
    paginate_amended.2.2.2.2.2.1 [("caches", .arr [.obj []])] [.obj []] rfl rfl⟩,
   ⟨rfl, paginate_amended.2.2.2.2.2.2.1 [("b", .arr [.obj []])] "zzz" rfl⟩,
   ⟨by decide,
    paginate_amended.2.2.2.2.2.2.2.1 none [("message", .str "not found")]
      (by decide)⟩⟩

/-- C9 counterexample: the payload entry `token: "*"` is redacted to
`token: "***"`, yet the literal value `*` still occurs in the emitted
record. -/
theorem redaction_counterexample :
    redactPayload [("token", ['*'])] = [("token", ['*', '*', '*'])] ∧
    ['*'] <:+: ['*', '*', '*'] :=
  ⟨rfl, ⟨[], ['*', '*'], rfl⟩⟩

/-- C9 (amended): an entry whose key matches the sensitive-key set
case-insensitively has its value replaced by its redacted form (empty
stays empty, length ≤ 8 becomes `***`, else first four + `***` + last
four) before the record is emitted, and other keys pass through
unchanged; for a sensitive value at least nine characters long that
contains no `*` the emitted record never contains the literal value (for
values built from `*`, such as `*` itself, the redacted form can still
contain the literal). -/
theorem redaction_amended :
    (∀ (k : String) (v : List Char) (rest : List (String × List Char)),
      sensitiveKeys.contains (lowerStr k) = true →
      redactPayload ((k, v) :: rest) = (k, redactChars v) :: redactPayload rest)
  ∧ (∀ (k : String) (v : List Char) (rest : List (String × List Char)),
      sensitiveKeys.contains (lowerStr k) = false →
      redactPayload ((k, v) :: rest) = (k, v) :: redactPayload rest)
  ∧ (∀ v : List Char, v ≠ [] → v.length ≤ 8 → redactChars v = ['*', '*', '*'])
  ∧ (∀ v : List Char, 9 ≤ v.length → '*' ∉ v → ¬ v <:+: redactChars v)
  ∧ redactPayload [("Token", "ghp_secretvalue12".toList)] =
      [("Token", "ghp_***ue12".toList)] := by
  refine ⟨?_, ?_, ?_, fun v h9 hs => redactChars_no_occurrence v h9 hs, rfl⟩
  · intro k v rest h
    simp [redactPayload, h]
    intro hc
    exact absurd (by simpa using h) hc
  · intro k v rest h
    simp [redactPayload, h]
    intro hc
    exact absurd hc (by simpa using h)
  · intro v hne hle
    rw [redactChars, if_neg (by simpa [List.isEmpty_iff] using hne), if_pos hle]

/-- Witness for C9 at concrete keys and values. -/
theorem redaction_amended_witness :
    (sensitiveKeys.contains (lowerStr "Token") = true ∧
      redactPayload [("Token", "ghp_secretvalue12".toList)] =
        ("Token", redactChars "ghp_secretvalue12".toList) :: redactPayload []) ∧
    (sensitiveKeys.contains (lowerStr "note") = false ∧
      redactPayload [("note", "hello".toList)] =
        ("note", "hello".toList) :: redactPayload []) ∧
    redactChars "abc".toList = ['*', '*', '*'] ∧
    (9 ≤ "abcdefghi".toList.length ∧ '*' ∉ "abcdefghi".toList ∧
      ¬ "abcdefghi".toList <:+: redactChars "abcdefghi".toList) :=
  ⟨⟨rfl, redaction_amended.1 "Token" "ghp_secretvalue12".toList [] rfl⟩,
   ⟨rfl, redaction_amended.2.1 "note" "hello".toList [] rfl⟩,
   redaction_amended.2.2.1 "abc".toList (by decide) (by decide),
   ⟨by decide, by decide,
    redaction_amended.2.2.2.1 "abcdefghi".toList (by decide) (by decide)⟩⟩

/-- C10: the social paginator collects the dict-typed elements of the
fetched pages and stops only after the first page whose dict batch is
shorter than the page size AND whose `Link` header advertises no
`rel="next"` relation; a page advertising `rel="next"` is never a
stopping page, so the next page is always fetched after it, even when it
was short. -/
theorem social_paginate_rule :
    (∀ (pageSize : Nat) (pages : List (JVal × String)),
      (∀ p ∈ pages, isArr p.1 = true) →
      socialPaginate pageSize pages =
        .ok (((takeThrough (socialStop pageSize) pages).map socialPageItems).flatten,
             (takeThrough (socialStop pageSize) pages).length))
  ∧ (∀ (pageSize : Nat) (p : JVal × String), isArr p.1 = true →
      hasLinkNext p.2 = true → socialStop pageSize p = false)
  ∧ (∀ (pageSize : Nat) (xs : List JVal) (link : String)
        (rest : List (JVal × String)),
      (onlyDicts xs).length < pageSize → hasLinkNext link = false →
      socialPaginate pageSize ((.arr xs, link) :: rest) = .ok (onlyDicts xs, 1))
  ∧ socialPaginate 2 [(.arr [.obj []], "<x>; rel=\"next\""), (.arr [], "")] =
      .ok ([.obj []], 2) := by
  refine ⟨socialPaginate_spec, ?_, ?_, rfl⟩
  · intro pageSize p harr hnext
    obtain ⟨body, link⟩ := p
    cases body with
    | arr xs => simp [socialStop, hnext]
    | null => simp [isArr] at harr
    | jbool b => simp [isArr] at harr
    | num n => simp [isArr] at harr
    | str s => simp [isArr] at harr
    | obj fs => simp [isArr] at harr
  · intro pageSize xs link rest hlt hnolink
    simp [socialPaginate, hlt, hnolink]

/-- Witness for C10 at concrete page scripts. -/
theorem social_paginate_rule_witness :
    (∀ p ∈ [((JVal.arr [.obj [], .obj []] : JVal), "h1"), (.arr [.obj []], "")],
      isArr p.1 = true) ∧
    socialPaginate 2 [(.arr [.obj [], .obj []], "h1"), (.arr [.obj []], "")] =
      .ok ([.obj [], .obj [], .obj []], 2) ∧
    ((onlyDicts [JVal.obj []]).length < 3 ∧ hasLinkNext "" = false ∧
      socialPaginate 3 [(.arr [.obj []], "")] = .ok (onlyDicts [JVal.obj []], 1)) :=
  ⟨by decide,
   social_paginate_rule.1 2 [(.arr [.obj [], .obj []], "h1"), (.arr [.obj []], "")]
     (by decide),
   ⟨by decide, rfl,
    social_paginate_rule.2.2.1 3 [JVal.obj []] "" [] (by decide) rfl⟩⟩

/-- C7 counterexample: with both rate-limit headers absent, a `403`
response whose body mentions the rate limit still makes the security
client wait 30 seconds before its retry (security.py lines 186-199), so
a rate-limit wait does occur despite the absent headers. -/
theorem rate_limit_wait_counterexample :
    secRateLimitWait none none 403 "API rate limit exceeded" 1000 = some 30 ∧
    secRateLimitWait none none 403 "API rate limit exceeded" 1000 ≠ none :=
  ⟨rfl, by decide⟩

/-- C7 (amended): after a response whose `X-RateLimit-Remaining` parses
to a value ≤ 0 and whose `X-RateLimit-Reset` parses to `reset_epoch`, the
request layer sleeps exactly `max 0 (reset_epoch − now) + 1` seconds (so
6 seconds for `remaining = 0`, `reset = now + 5`); if either header is
absent or unparsable the generic executor performs no rate-limit wait,
and the security client behaves identically except for its fallback: a
`403` whose body mentions `rate limit` still waits (reset-based when a
parsable reset header exists, else a flat 30 seconds). -/
theorem rate_limit_wait_amended :
    (∀ (r t : String) (now ri ti : Int),
      parseIntStr r = some ri → parseIntStr t = some ti → ri ≤ 0 →
      httpRateLimitWait (some r) (some t) now = some (max 0 (ti - now) + 1))
  ∧ (∀ (r t : String) (now ri ti : Int),
      parseIntStr r = some ri → parseIntStr t = some ti → 0 < ri →
      httpRateLimitWait (some r) (some t) now = none)
  ∧ httpRateLimitWait (some "0") (some "1005") 1000 = some 6
  ∧ (∀ (t : Option String) (now : Int), httpRateLimitWait none t now = none)
  ∧ (∀ (r : Option String) (now : Int), httpRateLimitWait r none now = none)
  ∧ (∀ (r t : String) (now : Int), parseIntStr r = none →
      httpRateLimitWait (some r) (some t) now = none)
  ∧ (∀ (r t : String) (now : Int), parseIntStr t = none →
      httpRateLimitWait (some r) (some t) now = none)
  ∧ (∀ (rem reset : Option String) (status : Nat) (body : String) (now : Int),
      (decide (status = 403) && containsSubstr "rate limit" (lowerStr body)) = false →
      secRateLimitWait rem reset status body now = httpRateLimitWait rem reset now)
  ∧ (∀ (body : String) (now : Int),
      containsSubstr "rate limit" (lowerStr body) = true →
      secRateLimitWait none none 403 body now = some 30) := by
  refine ⟨?_, ?_, rfl, ?_, ?_, ?_, ?_, ?_, ?_⟩
  · intro r t now ri ti hr ht hle
    simp [httpRateLimitWait, hr, ht]
    omega
  · intro r t now ri ti hr ht hgt
    simp [httpRateLimitWait, hr, ht]
    omega
  · intro t now; cases t <;> rfl
  · intro r now; cases r <;> rfl
  · intro r t now hr; simp [httpRateLimitWait, hr]
  · intro r t now ht
    rcases hr : parseIntStr r with _ | ri <;> simp [httpRateLimitWait, hr, ht]
  · intro rem reset status body now h
    cases rem with
    | none => cases reset <;> simp [secRateLimitWait, httpRateLimitWait, h]
    | some r =>
      cases reset with
      | none => simp [secRateLimitWait, httpRateLimitWait, h]
      | some t =>
        rcases hr : parseIntStr r with _ | ri <;>
          rcases ht : parseIntStr t with _ | ti <;>
          simp [secRateLimitWait, httpRateLimitWait, hr, ht, h]
        split_ifs <;> first | rfl | omega
  · intro body now h
    simp [secRateLimitWait, h]

/-- Witness for C7 at concrete headers, statuses and bodies. -/
theorem rate_limit_wait_amended_witness :
    (parseIntStr "0" = some 0 ∧ parseIntStr "1005" = some 1005 ∧ (0 : Int) ≤ 0 ∧
      httpRateLimitWait (some "0") (some "1005") 1000 = some (max 0 (1005 - 1000) + 1))
  ∧ (parseIntStr "abc" = none ∧
      httpRateLimitWait (some "abc") (some "1005") 1000 = none)
  ∧ ((decide ((200 : Nat) = 403) && containsSubstr "rate limit" (lowerStr "ok")) = false ∧
      secRateLimitWait (some "9") (some "1005") 200 "ok" 1000 =
        httpRateLimitWait (some "9") (some "1005") 1000)
  ∧ (containsSubstr "rate limit" (lowerStr "API rate limit exceeded") = true ∧
      secRateLimitWait none none 403 "API rate limit exceeded" 500 = some 30) :=
  ⟨⟨rfl, rfl, by decide,
     rate_limit_wait_amended.1 "0" "1005" 1000 0 1005 rfl rfl (by decide)⟩,
   ⟨rfl, rate_limit_wait_amended.2.2.2.2.2.1 "abc" "1005" 1000 rfl⟩,
   ⟨by decide, rate_limit_wait_amended.2.2.2.2.2.2.2.1
      (some "9") (some "1005") 200 "ok" 1000 (by decide)⟩,
   ⟨rfl, rate_limit_wait_amended.2.2.2.2.2.2.2.2
      "API rate limit exceeded" 500 rfl⟩⟩

/-- C8: for every attempt number `a ≥ 1` the backoff sleep equals
`min 30 (0.5 * 2^(a-1))` plus a deterministic jitter of at most ±10% of
that base (derived from the fractional part of the clock), clamped
non-negative (the clamp never binds, since the jitter never exceeds the
base); retryable statuses keep retrying up to the ceiling of 5 retries,
after which the last response is returned as-is and the last network
exception is re-raised.  Floats are modelled by exact rationals. -/
theorem backoff_formula :
    (∀ (a : Nat) (frac : ℚ), 1 ≤ a → 0 ≤ frac → frac < 1 →
      backoffSeconds a frac =
        backoffBase a + backoffBase a * (1 / 10) * (2 * frac - 1) ∧
      |backoffSeconds a frac - backoffBase a| ≤ backoffBase a * (1 / 10) ∧
      0 ≤ backoffSeconds a frac)
  ∧ (∀ a : Nat, backoffBase a = min 30 ((1 / 2) * 2 ^ (a - 1)))
  ∧ (∀ (s : Nat) (rest : List ReqStep) (n : Nat),
      s ∈ retryableStatus → n + 1 ≤ 5 →
      requestLoopGo [200, 201, 202, 204] (.resp s :: rest) n =
        requestLoopGo [200, 201, 202, 204] rest (n + 1))
  ∧ requestLoop (List.replicate 6 (.resp 500)) = .returned 500 6
  ∧ requestLoop (List.replicate 6 .netErr) = .raised 6 := by
  refine ⟨?_, fun a => rfl, ?_, by decide, by decide⟩
  · intro a frac ha h0 h1
    have hbpos : 0 < backoffBase a := by
      have h2 : (0 : ℚ) < (1 / 2) * 2 ^ (a - 1) := by positivity
      have h3 : (0 : ℚ) < 30 := by norm_num
      exact lt_min h3 h2
    have hj : (0 : ℚ) ≤ backoffBase a * (1 / 10) := by positivity
    have hlow : (-1 : ℚ) ≤ 2 * frac - 1 := by linarith
    have hhigh : (2 : ℚ) * frac - 1 ≤ 1 := by linarith
    have hml := mul_le_mul_of_nonneg_left hlow hj
    have hmh := mul_le_mul_of_nonneg_left hhigh hj
    have hx : 0 ≤ backoffBase a + backoffBase a * (1 / 10) * (2 * frac - 1) := by
      nlinarith
    have heq : backoffSeconds a frac =
        backoffBase a + backoffBase a * (1 / 10) * (2 * frac - 1) := by
      rw [backoffSeconds]
      exact max_eq_right hx
    refine ⟨heq, ?_, heq ▸ hx⟩
    rw [heq]
    rw [abs_le]
    constructor <;> nlinarith
  · intro s rest n hs hn
    simp only [retryableStatus, List.mem_cons, List.not_mem_nil, or_false] at hs
    rcases hs with rfl | rfl | rfl | rfl | rfl <;>
      simp [requestLoopGo, retryableStatus, hn]

/-- Witness for C8 at attempt 3 with clock fraction 1/4. -/
theorem backoff_formula_witness :
    (1 ≤ 3 ∧ (0 : ℚ) ≤ 1 / 4 ∧ (1 / 4 : ℚ) < 1) ∧
    (backoffSeconds 3 (1 / 4) =
        backoffBase 3 + backoffBase 3 * (1 / 10) * (2 * (1 / 4) - 1) ∧
      |backoffSeconds 3 (1 / 4) - backoffBase 3| ≤ backoffBase 3 * (1 / 10) ∧
      0 ≤ backoffSeconds 3 (1 / 4)) ∧
    ((500 : Nat) ∈ retryableStatus ∧ 0 + 1 ≤ 5 ∧
      requestLoopGo [200, 201, 202, 204] [.resp 500] 0 =
        requestLoopGo [200, 201, 202, 204] [] 1) :=
  ⟨⟨by norm_num, by norm_num, by norm_num⟩,
   backoff_formula.1 3 (1 / 4) (by norm_num) (by norm_num) (by norm_num),
   ⟨by decide, by decide,
    backoff_formula.2.2.1 500 [] 0 (by decide) (by decide)⟩⟩

/-- Witness for C6: reason `invalid` in dismiss mode, and an unsupported
mode `patch`. -/
theorem clear_vulns_validation_witness :
    validReasons.contains "invalid" = false ∧
    clearVulns "dismiss" "invalid" [] [] [] [] [] = (.error "Reason non valida", 0) ∧
    clearVulns "patch" "won\x27t_fix" [] [] [] [] [] =
      (.error "mode deve essere delete o dismiss", 0) :=
  ⟨by decide, clear_vulns_validation.1 "invalid" [] [] [] [] [] (by decide),
   clear_vulns_validation.2 "patch" "won\x27t_fix" [] [] [] [] []
     (by decide) (by decide)⟩

end ForgeOps
